import Mathlib

/-!
# Verification of the `relay` federated directory server

A shallow embedding, in Lean 4, of the core of the `relay` server
(`src/activitypub/services.rs`, `src/activitypub/db.rs`): the registry
synchronizer behind `PUT /beacon`, the in-memory presence tracker, the
ownership-verification flow and the slug allocator.  Pure Rust helpers are
translated function by function; the Postgres tables become lists carried in
an explicit `ServerState`; the handful of db helpers whose SQL is not part of
the sources (`slug_exists`, `set_app_slug`, `mark_app_verified`,
`update_app_details`, `get_app_by_slug`) are modelled from the spec and say
so in their doc comments.  External collaborators (the `url` crate's parser,
the `slug` crate's slugifier, the system clock, the network fetch of
ownership verification, JWT signing) are modelled by small deterministic
functions or by explicit input parameters, as noted at each definition.
-/

namespace Relay

/-! ## String primitives

Structurally recursive character-list versions of the string operations the
Rust code uses (`starts_with`, `split`, `trim_start_matches`, `contains`,
`parse::<i32>`), so that every definition in this file evaluates inside the
kernel on concrete inputs. -/

/-- `str::starts_with`. -/
def strStartsWith (s p : String) : Bool :=
  p.data.isPrefixOf s.data

/-- Drop the first `n` characters of a string. -/
def strDrop (s : String) (n : Nat) : String :=
  String.mk (s.data.drop n)

/-- Splitting on a separator, fuelled by the input length (each step
consumes at least one character). -/
def splitOnFuel (sep : List Char) : Nat → List Char → List Char →
    List (List Char)
  | 0, cs, acc => [acc ++ cs]
  | n + 1, cs, acc =>
    match cs with
    | [] => [acc]
    | c :: rest =>
      if sep ≠ [] ∧ sep.isPrefixOf (c :: rest) then
        acc :: splitOnFuel sep n ((c :: rest).drop sep.length) []
      else
        splitOnFuel sep n rest (acc ++ [c])

/-- `str::split(sep).collect()` for a non-empty separator. -/
def strSplitOn (s sep : String) : List String :=
  (splitOnFuel sep.data s.data.length s.data []).map String.mk

/-- Join character lists with a separator. -/
def intercalateChars (sep : List Char) : List (List Char) → List Char
  | [] => []
  | [x] => x
  | x :: y :: xs => x ++ sep ++ intercalateChars sep (y :: xs)

/-- Digit-string value accumulator for the `i32` parse model. -/
def digitsValAux : List Char → Nat → Option Nat
  | [], acc => some acc
  | c :: rest, acc =>
    if c.isDigit then digitsValAux rest (acc * 10 + (c.toNat - '0'.toNat))
    else none

def digitsVal : List Char → Option Nat
  | [] => none
  | cs => digitsValAux cs 0

/-- Model of `str::parse::<i32>()` (an optional sign then decimal digits;
the `i32` width, which no stored id approaches, is not modelled). -/
def parseI32 (s : String) : Option Int :=
  match s.data with
  | '-' :: rest => (digitsVal rest).map (fun n => -(n : Int))
  | '+' :: rest => (digitsVal rest).map (fun n => (n : Int))
  | cs => (digitsVal cs).map (fun n => (n : Int))

/-! ## Strings and URL handling

`services.rs` parses URLs with the external `url` crate.  `parseUrl` models
`Url::parse` on the absolute `scheme://host/path?query` URLs this server
deals with: it fails (returns `none`) on a string with no `://`, exactly as
`Url::parse` fails with `RelativeUrlWithoutBase` on a scheme-less URL such as
`"victim.com/x"`, and it fails on an empty host, as `Url::parse` does for the
http(s) schemes.  An empty path is rendered `"/"`, matching `Url::path`. -/

structure ParsedUrl where
  scheme : String
  host : String
  path : String
  query : String
  deriving Repr, DecidableEq

/-- Model of `url::Url::parse` for absolute `scheme://host[/path][?query]`
URLs (the shapes the server's origin guard and base-URL computation see). -/
def parseUrl (s : String) : Option ParsedUrl :=
  match strSplitOn s "://" with
  | [sch, rest] =>
    if sch == "" then none
    else
      let hostChars := rest.toList.takeWhile (fun c => c ≠ '/' ∧ c ≠ '?')
      let host := String.mk hostChars
      if host == "" then none
      else
        let tail := String.mk (rest.toList.drop hostChars.length)
        match strSplitOn tail "?" with
        | [] => some ⟨sch, host, "/", ""⟩
        | [p] => some ⟨sch, host, if p == "" then "/" else p, ""⟩
        | p :: qs =>
          some ⟨sch, host, if p == "" then "/" else p,
            String.mk (intercalateChars ['?'] (qs.map String.data))⟩
  | _ => none

/-- `services.rs::normalize_app_url`: normalize a missing scheme to
`https://`. -/
def normalize_app_url (url : String) : String :=
  if ¬ strStartsWith url "https" ∧ ¬ strStartsWith url "http" then
    "https://" ++ url
  else
    url

/-- `services.rs::get_base_url`: scheme + host + path with the query
stripped; the path is omitted when it is just `/`. -/
def get_base_url (url : String) : Option String :=
  match parseUrl (normalize_app_url url) with
  | none => none
  | some u =>
    some (u.scheme ++ "://" ++ u.host ++ (if u.path ≠ "/" then u.path else ""))

/-- `services.rs::get_domain`: just the host of a (normalized) URL. -/
def get_domain (url : String) : Option String :=
  (parseUrl (normalize_app_url url)).map (·.host)

/-- `str::trim_start_matches("www.")`: strip every leading `www.`
repetition.  Implemented with a length fuel, which suffices because each
strip removes four characters. -/
def stripWwwAux : Nat → String → String
  | 0, s => s
  | n + 1, s => if strStartsWith s "www." then stripWwwAux n (strDrop s 4) else s

def stripWww (s : String) : String := stripWwwAux s.data.length s

/-- `str::contains(pat)`: substring containment, used by the image
materialization branch on `"data:"`. -/
def hasSub (s pat : String) : Bool :=
  s.toList.tails.any (fun t => pat.toList.isPrefixOf t)

/-! ## Data model

Rows of the four relational tables, as the Rust structs read them
(`DbApp`, `DbActivity`, `DbRelay` in `src/activitypub`).  The list holding
the `apps` table is kept in ascending-id order, which is the `ORDER BY id
ASC` view every query of `db.rs` uses.  `slug`, `verification_code` and
`verified` are columns the services code reads and writes through db
helpers whose SQL is outside the given sources; they follow the spec's
Listing data model. -/

structure DbApp where
  id : Int
  ap_id : String
  url : String
  name : String
  description : String
  active : Bool
  image : String
  adult : Bool
  tags : String
  visible : Bool
  slug : Option String
  verification_code : Option String
  verified : Bool
  deriving Repr, DecidableEq

structure DbActivity where
  ap_id : String
  actor : String
  obj : String
  kind : String
  deriving Repr, DecidableEq

structure DbRelay where
  id : Int
  inbox : String
  deriving Repr, DecidableEq

/-- An in-memory presence record: `SessionInfo` of the crate root
(`session_id`, `timestamp` in milliseconds). -/
structure SessionInfo where
  session_id : String
  timestamp : Int
  deriving Repr, DecidableEq

/-- The server's state: the three persisted tables the claims touch, plus
the in-memory session map.  `followers` is the join view
`get_relay_followers` returns (every relay with a follower edge to the
local system actor, id 0); `sessions` is the `HashMap<String,
Vec<SessionInfo>>` behind the `RwLock`, as an association list keyed by the
literal submitted URL. -/
structure ServerState where
  apps : List DbApp
  activities : List DbActivity
  followers : List DbRelay
  sessions : List (String × List SessionInfo)
  deriving Repr, DecidableEq

/-- One hand-off to the signed-delivery collaborator: the activity kind and
id of the envelope `system_user.send` is given, and the recipient inboxes. -/
structure Delivery where
  kind : String
  activity_id : String
  inboxes : List String
  deriving Repr, DecidableEq

/-! ## db.rs -/

/-- `db.rs::get_app_by_base_url`: `SELECT .. WHERE url LIKE '{base}%' ORDER
BY id ASC LIMIT 1` — the first (lowest-id) app whose stored url starts with
the base url. -/
def get_app_by_base_url (st : ServerState) (base : String) : Option DbApp :=
  st.apps.find? (fun a => strStartsWith a.url base)

/-- `db.rs::get_app_by_id`: `SELECT * FROM apps WHERE id = $1`. -/
def get_app_by_id (st : ServerState) (id : Int) : Option DbApp :=
  st.apps.find? (fun a => a.id == id)

/-- `db.rs::update_app`: `UPDATE apps SET name,description,is_active,image,
is_adult,tags WHERE url = $7` — every row whose `url` equals the literal
submitted url, and only those, gets the new field values. -/
def update_app (st : ServerState) (url name description : String)
    (active : Bool) (image : String) (adult : Bool) (tags : String) :
    ServerState :=
  { st with
    apps := st.apps.map (fun a =>
      if a.url == url then
        { a with
          name := name, description := description, active := active,
          image := image, adult := adult, tags := tags }
      else a) }

/-- `db.rs::create_app`: INSERT of a new listing row; the serial primary key
assigns the next id, `count + 1` (ids start at 1). -/
def create_app (st : ServerState) (apId url name description : String)
    (active : Bool) (image : String) (adult : Bool) (tags : String) :
    ServerState :=
  { st with
    apps := st.apps ++ [{
      id := (st.apps.length : Int) + 1, ap_id := apId, url := url,
      name := name, description := description, active := active,
      image := image, adult := adult, tags := tags, visible := true,
      slug := none, verification_code := none, verified := false }] }

/-- `db.rs::create_activity`: INSERT of one ledger row (append-only). -/
def create_activity (st : ServerState) (apId actor obj kind : String) :
    ServerState :=
  { st with activities := st.activities ++ [⟨apId, actor, obj, kind⟩] }

/-- Modelled from the spec: `slug_exists` (imported by `services.rs` but its
SQL is not in the sources) probes "existence of the base slug" among the
stored listings' slugs. -/
def slug_exists (st : ServerState) (s : String) : Bool :=
  st.apps.any (fun a => a.slug == some s)

/-- Modelled from the spec: `set_app_slug` (imported by `services.rs`, SQL
not in the sources) stores the allocated slug on the listing row with the
given id. -/
def set_app_slug (st : ServerState) (id : Int) (slug : String) : ServerState :=
  { st with
    apps := st.apps.map (fun a =>
      if a.id == id then { a with slug := some slug } else a) }

/-- Modelled from the spec: `get_app_by_slug` (imported by `services.rs`,
SQL not in the sources) looks a listing up by its unique slug. -/
def get_app_by_slug (st : ServerState) (s : String) : Option DbApp :=
  st.apps.find? (fun a => a.slug == some s)

/-- Modelled from the spec: `mark_app_verified` (imported by `services.rs`,
SQL not in the sources) "transitions the listing to Verified". -/
def mark_app_verified (st : ServerState) (id : Int) : ServerState :=
  { st with
    apps := st.apps.map (fun a =>
      if a.id == id then { a with verified := true } else a) }

/-- Modelled from the spec: `update_app_details` (imported by
`services.rs`, SQL not in the sources) writes the owner-editable fields of
the listing row with the given id. -/
def update_app_details (st : ServerState) (id : Int)
    (name description image tags : String) (adult : Bool) : ServerState :=
  { st with
    apps := st.apps.map (fun a =>
      if a.id == id then
        { a with
          name := name, description := description, image := image,
          tags := tags, adult := adult }
      else a) }

/-! ## Presence tracking (`services.rs` sessions) -/

/-- `services.rs::prune_old_sessions`: from every per-url list, retain the
sessions with `now_ms - timestamp < 5000`.  The clock (`now_utc` seconds
times 1000 in the source) is passed in as `now_ms`. -/
def prune_old_sessions (now_ms : Int)
    (sessions : List (String × List SessionInfo)) :
    List (String × List SessionInfo) :=
  sessions.map (fun e =>
    (e.1, e.2.filter (fun s => now_ms - s.timestamp < 5000)))

/-- `services.rs::update_session_info` (`POST /session`): keyed by the
literal submitted url; an already-present `session_id` gets its timestamp
refreshed (`is_new = false`), otherwise the record is appended (`is_new =
true`).  Returns the new map and `is_new_session`. -/
def update_session_info (sessions : List (String × List SessionInfo))
    (url sid : String) (ts : Int) :
    List (String × List SessionInfo) × Bool :=
  match sessions.find? (fun e => e.1 == url) with
  | some e =>
    if e.2.any (fun s => s.session_id == sid) then
      (sessions.map (fun e' =>
        if e'.1 == url then
          (e'.1, e'.2.map (fun s =>
            if s.session_id == sid then { s with timestamp := ts } else s))
        else e'), false)
    else
      (sessions.map (fun e' =>
        if e'.1 == url then (e'.1, e'.2 ++ [⟨sid, ts⟩]) else e'), true)
  | none => (sessions ++ [(url, [⟨sid, ts⟩])], true)

/-- The live count `get_app_handler` computes for one listing url: prune,
then sum the session-list lengths of every raw session url whose base url
equals the listing url's base url. -/
def live_count (sessions : List (String × List SessionInfo))
    (appUrl : String) (now_ms : Int) : Nat :=
  let pruned := prune_old_sessions now_ms sessions
  let base := (get_base_url appUrl).getD appUrl
  ((pruned.filter (fun e => get_base_url e.1 == some base)).map
    (fun e => e.2.length)).sum

/-! ## Slug allocation (`services.rs`) -/

/-- ASCII model of the external `slug::slugify`: keep alphanumerics
lowercased, turn every maximal run of other characters into a single
hyphen, and trim leading/trailing hyphens.  (The crate also transliterates
non-ASCII input, which no claim exercises.)  `pend` records that a
separator was seen since the last emitted character. -/
def slugifyAux : List Char → Bool → List Char
  | [], _ => []
  | c :: rest, pend =>
    if c.isAlphanum then
      (if pend then ['-', c.toLower] else [c.toLower]) ++ slugifyAux rest false
    else
      slugifyAux rest true

def slugify (s : String) : String :=
  String.mk (slugifyAux (s.toList.dropWhile (fun c => ¬ c.isAlphanum)) false)

/-- `services.rs::generate_slug`: slugify, with the fixed fallback
`"world"` for an empty result. -/
def generate_slug (name : String) : String :=
  let slug_text := slugify name
  if slug_text == "" then "world" else slug_text

/-- The probe loop of `generate_unique_slug`: `for i in 2..1000`, return the
first `{base}-{i}` the `taken` check reports free.  `taken` is the
`slug_exists` db probe (a db error counts as taken, as the `if let
Ok(false)` in the source does). -/
def probeSlug (taken : String → Bool) (base : String) :
    Nat → Nat → Option String
  | 0, _ => none
  | fuel + 1, i =>
    if ¬ taken (base ++ "-" ++ toString i) then some (base ++ "-" ++ toString i)
    else probeSlug taken base fuel (i + 1)

/-- `services.rs::generate_unique_slug`: the base slug if free, else the
first free `{base}-{i}` for `i` in `2..1000`, else `{base}-{rand}` with a
random `u32` suffix (the random draw is the `rand` parameter). -/
def generate_unique_slug (taken : String → Bool) (name : String)
    (rand : Nat) : String :=
  let base_slug := generate_slug name
  if ¬ taken base_slug then base_slug
  else
    match probeSlug taken base_slug 998 2 with
    | some s => s
    | none => base_slug ++ "-" ++ toString rand

/-! ## The registry synchronizer: `PUT /beacon` (`services.rs::new_beacon`)

The handler's effectful collaborators become parameters: `origin` is the
request's `Origin` header; `ledgerFails` injects the one storage failure a
claim is about (the `create_activity` INSERT failing on the update path);
`imageOk` stands for "the image file already exists on disk or the data-url
decodes" inside `create_local_image`; `rand` is the random slug suffix.
The environment (DOMAIN/PROTOCOL env vars and the system actor's
ActivityPub id) is an `Env`.  The handler returns its HTTP outcome, the
state after its writes, and the fan-out hand-offs it attempted. -/

structure Env where
  domain : String
  protocol : String
  relayDomain : String
  deriving Repr, DecidableEq

inductive BeaconOutcome where
  | forbidden
  | notModified
  | ok
  | badRequest
  | serverError
  deriving Repr, DecidableEq

/-- `services.rs::get_latest_value`: "incoming wins only if it differs". -/
def get_latest_value {α : Type} [DecidableEq α] (original incoming : α) : α :=
  if original ≠ incoming then incoming else original

/-- The origin guard at the top of `new_beacon`: only when the header is
present, readable, and both the header value and the literal payload url
parse, are the www-stripped hosts compared. -/
def originGuardBlocks (origin : Option String) (url : String) : Bool :=
  match origin with
  | none => false
  | some o =>
    match parseUrl o, parseUrl url with
    | some ou, some pu => stripWww ou.host ≠ stripWww pu.host
    | _, _ => false

/-- `services.rs::create_local_image`: returns the external
`{protocol}{relay_domain}/images/{count}.png` URL derived from the last
segment of the listing's ActivityPub id, or `""` when the data-url fails to
decode (and no file pre-exists) — the caller turns `""` into a 400. -/
def create_local_image (apId protocol relayDomain : String)
    (imageOk : Bool) : String :=
  let count := (strSplitOn apId "/").getLastD ""
  if imageOk then protocol ++ relayDomain ++ "/images/" ++ count ++ ".png"
  else ""

/-- The image-resolution step of `new_beacon`'s update arm: keep the stored
image unless the incoming one differs and is not the `"#"` sentinel, and
materialize an inline `data:` payload (`none` = decode failure, which the
handler turns into a 400). -/
def resolve_image (env : Env) (app : DbApp) (image : String)
    (imageOk : Bool) : Option String :=
  let app_image := if app.image == image || image == "#" then app.image else image
  if app.image ≠ image ∧ hasSub app_image "data:" then
    let iu := create_local_image app.ap_id env.protocol env.relayDomain imageOk
    if iu == "" then none else some iu
  else some app_image

/-- The no-field-delta check of `new_beacon`'s update arm, over the resolved
values. -/
def fields_unchanged (app : DbApp) (name description : String)
    (active : Bool) (image' : String) (adult : Bool) (tags : String) : Bool :=
  get_latest_value app.name name == app.name &&
  get_latest_value app.description description == app.description &&
  get_latest_value app.active active == app.active &&
  image' == app.image &&
  get_latest_value app.adult adult == app.adult &&
  get_latest_value app.tags tags == app.tags

/-- `services.rs::new_beacon`, the `PUT /beacon` handler. -/
def new_beacon (env : Env) (st : ServerState)
    (url name description : String) (active : Bool)
    (image? : Option String) (adult? : Option Bool) (tags? : Option String)
    (origin : Option String) (ledgerFails imageOk : Bool) (rand : Nat) :
    BeaconOutcome × ServerState × List Delivery :=
  if originGuardBlocks origin url then (.forbidden, st, [])
  else
    let image := image?.getD "#"
    let adult := adult?.getD false
    let tags := tags?.getD ""
    let domain := env.domain
    let apps_count := st.apps.length
    let activities_count := st.activities.length
    let base_url := (get_base_url url).getD url
    match get_app_by_base_url st base_url with
    | some app =>
      let app_name := get_latest_value app.name name
      let app_description := get_latest_value app.description description
      let app_active := get_latest_value app.active active
      let app_adult := get_latest_value app.adult adult
      let app_tags := get_latest_value app.tags tags
      match resolve_image env app image imageOk with
      | none => (.badRequest, st, [])
      | some image' =>
        if fields_unchanged app name description active image' adult tags then
          (.notModified, st, [])
        else
          let st1 := update_app st url app_name app_description app_active
            image' app_adult app_tags
          let actId := domain ++ "/activities/" ++ toString (activities_count + 1)
          if ledgerFails then (.serverError, st1, [])
          else
            let st2 := create_activity st1 actId domain app.ap_id "Update"
            (.ok, st2, [⟨"Update", actId, st2.followers.map (·.inbox)⟩])
    | none =>
      let apId := domain ++ "/beacon/" ++ toString apps_count
      let imageRes : Option String :=
        if hasSub image "data:" then
          let iu := create_local_image apId env.protocol env.relayDomain imageOk
          if iu == "" then none else some iu
        else some image
      match imageRes with
      | none => (.badRequest, st, [])
      | some image_url =>
        let st1 := create_app st apId url name description active image_url
          adult tags
        let slug := generate_unique_slug (fun s => slug_exists st1 s) name rand
        let st2 := set_app_slug st1 ((apps_count : Int) + 1) slug
        let actId := domain ++ "/activities/" ++ toString activities_count
        -- Note: the create path builds and sends the Create envelope but
        -- never inserts a ledger row (no `create_activity` call in the
        -- source's `Ok(None)` arm).
        (.ok, st2, [⟨"Create", actId, st2.followers.map (·.inbox)⟩])

/-! ## Ownership verification (`services.rs`)

JWT signing and verification (`jwt_simple`, RS256 with the system actor's
keypair) are external cryptography.  They are modelled algebraically: a
presented cookie value is either a token genuinely signed by the system
actor's key and unexpired (`signed c`, carrying the decoded claims) or
anything else (`garbage`), and `verify_token` succeeds exactly on the
former; `create_owner_token` signs the claims with that same key, so it
produces `signed`. -/

structure OwnerClaims where
  app_id : Int
  slug : String
  deriving Repr, DecidableEq

inductive OwnerToken where
  | signed (claims : OwnerClaims)
  | garbage
  deriving Repr, DecidableEq

def verify_token : OwnerToken → Option OwnerClaims
  | .signed c => some c
  | .garbage => none

inductive AuthErr where
  | noToken
  | invalidToken
  | wrongWorld
  deriving Repr, DecidableEq

/-- `services.rs::validate_owner_token`: extract the `relay-owner-token`
cookie, verify its signature with the system actor's key, then require the
decoded `app_id` to equal the target listing's id. -/
def validate_owner_token (cookie : Option OwnerToken)
    (expected_app_id : Int) : Except AuthErr OwnerClaims :=
  match cookie with
  | none => .error .noToken
  | some tok =>
    match verify_token tok with
    | none => .error .invalidToken
    | some claims =>
      if claims.app_id ≠ expected_app_id then .error .wrongWorld
      else .ok claims

/-- `services.rs::create_owner_token`: JWT over `{app_id, slug}` signed with
the system actor's private key, 7-day expiry. -/
def create_owner_token (app_id : Int) (slug : String) : OwnerToken :=
  .signed ⟨app_id, slug⟩

/-- The `id_or_slug` lookup the world endpoints share: parse as an `i32`
(then `get_app_by_id (id + 1)`), otherwise look the slug up. -/
def lookupApp (st : ServerState) (slugOrId : String) : Option DbApp :=
  match parseI32 slugOrId with
  | some id => get_app_by_id st (id + 1)
  | none => get_app_by_slug st slugOrId

inductive UpdateWorldOutcome where
  | notFound
  | unauthorized (e : AuthErr)
  | ok
  deriving Repr, DecidableEq

/-- `services.rs::update_world` (`POST /world/{slug}/update`): resolve the
listing, validate the owner token against that listing's id, and only then
write the owner-editable fields. -/
def update_world (st : ServerState) (slugOrId : String)
    (cookie : Option OwnerToken) (name description : String)
    (image? : Option String) (tags? : Option String)
    (adult? : Option Bool) : UpdateWorldOutcome × ServerState :=
  match lookupApp st slugOrId with
  | none => (.notFound, st)
  | some app =>
    match validate_owner_token cookie app.id with
    | .error e => (.unauthorized e, st)
    | .ok _ =>
      let image := image?.getD app.image
      let tags := tags?.getD app.tags
      let adult := adult?.getD app.adult
      (.ok, update_app_details st app.id name description image tags adult)

/-- The `Set-Cookie` the verification success path builds:
`relay-owner-token`, whole-site path, http-only, 7-day max age. -/
structure OwnerCookie where
  cookieName : String
  token : OwnerToken
  path : String
  httpOnly : Bool
  maxAgeDays : Nat
  deriving Repr, DecidableEq

inductive VerifyOutcome where
  | notFound
  | noCode
  | fetchFailed (details : String)
  | tagMissing (expected : String)
  | codeMismatch (found expected : String)
  | verified (cookie : OwnerCookie)
  deriving Repr, DecidableEq

/-- `services.rs::verify_world_ownership` (`POST /world/{slug}/verify`).
The network fetch of `normalize_app_url app.url` (reqwest + reading the
body) is the `fetch` parameter; the `scraper` selection of
`meta[name="zesty-verify"]` and its `content` attribute from the fetched
document is the `metaContent` parameter. -/
def verify_world_ownership (st : ServerState) (slugOrId : String)
    (fetch : Except String String)
    (metaContent : String → Option String) : VerifyOutcome × ServerState :=
  match lookupApp st slugOrId with
  | none => (.notFound, st)
  | some app =>
    match app.verification_code with
    | none => (.noCode, st)
    | some c =>
      if c == "" then (.noCode, st)
      else
        match fetch with
        | .error e => (.fetchFailed e, st)
        | .ok html =>
          match metaContent html with
          | some code =>
            if code == c then
              let st' := mark_app_verified st app.id
              let app_slug := app.slug.getD (toString app.id)
              (.verified ⟨"relay-owner-token",
                create_owner_token app.id app_slug, "/", true, 7⟩, st')
            else (.codeMismatch code c, st)
          | none => (.tagMissing c, st)

/-! ## Concrete fixtures

A small deployment used by the concrete theorems: one remote relay
following the local system actor, and one stored listing registered under a
query-carrying URL. -/

def envEx : Env := ⟨"https://relay.example/relay", "https://", "relay.example"⟩

def peerRelay : DbRelay := ⟨1, "https://peer.example/inbox"⟩

def storedApp : DbApp :=
  ⟨1, "https://relay.example/relay/beacon/0", "https://x.com/app?s=1",
   "Old", "desc", true, "#", false, "", true, some "old", none, false⟩

def stEmpty : ServerState := ⟨[], [], [peerRelay], []⟩

def stOne : ServerState := ⟨[storedApp], [], [peerRelay], []⟩

/-- A second listing, used to present listing A's capability against B. -/
def appOther : DbApp :=
  ⟨2, "https://relay.example/relay/beacon/1", "https://y.com/world",
   "Other", "d2", true, "#", false, "", true, some "other", none, false⟩

def stTwo : ServerState := ⟨[storedApp, appOther], [], [peerRelay], []⟩

/-- A listing carrying a stored verification code. -/
def appWithCode : DbApp :=
  ⟨1, "https://relay.example/relay/beacon/0", "https://x.com/app?s=1",
   "Old", "desc", true, "#", false, "", true, some "old", some "abc123", false⟩

def stCode : ServerState := ⟨[appWithCode], [], [peerRelay], []⟩

/-! ## Theorems -/

/-- C1: on the `PUT /beacon` create path the handler builds a `Create`
envelope whose activity id carries the prior ledger count and hands one
delivery per follower inbox to the sender — but it never appends the
`Create` Activity ledger row the spec requires: the `activities` table is
left empty.  (The update arm does call `create_activity`; the `Ok(None)`
create arm of `services.rs::new_beacon` does not.) -/
theorem create_path_sends_without_ledger_append :
    (new_beacon envEx stEmpty "https://new.example/app" "New App" "d" true
      none none none none false true 7).1 = .ok ∧
    (new_beacon envEx stEmpty "https://new.example/app" "New App" "d" true
      none none none none false true 7).2.1.activities = [] ∧
    (new_beacon envEx stEmpty "https://new.example/app" "New App" "d" true
      none none none none false true 7).2.2 =
      [⟨"Create", "https://relay.example/relay/activities/0",
        ["https://peer.example/inbox"]⟩] ∧
    (new_beacon envEx stEmpty "https://new.example/app" "New App" "d" true
      none none none none false true 7).2.1.apps.map (·.url) =
      ["https://new.example/app"] ∧
    stEmpty.followers.map (·.inbox) = ["https://peer.example/inbox"] ∧
    stEmpty.activities.length = 0 := by
  decide

/-- C6: the origin guard fires only when both the `Origin` header and the
literal payload url parse as absolute URLs.  A mismatching parseable pair
is rejected with 403 and a matching pair (with or without `www.`) passes —
but a scheme-less payload url such as `victim.com/x` (host `victim.com`
under the server's own normalization) skips the guard entirely and the
submission from `https://evil.com` is registered. -/
theorem origin_guard_bypassed_by_schemeless_url :
    originGuardBlocks (some "https://evil.com") "https://victim.com/x" = true ∧
    (new_beacon envEx stOne "https://victim.com/x" "n" "d" true none none none
      (some "https://evil.com") false true 7) = (.forbidden, stOne, []) ∧
    originGuardBlocks (some "https://victim.com") "https://victim.com/x" = false ∧
    originGuardBlocks (some "https://www.victim.com") "https://victim.com/x" = false ∧
    originGuardBlocks (some "https://evil.com") "victim.com/x" = false ∧
    get_domain "victim.com/x" = some "victim.com" ∧
    stripWww "evil.com" ≠ stripWww "victim.com" ∧
    (new_beacon envEx stEmpty "victim.com/x" "n" "d" true none none none
      (some "https://evil.com") false true 7).1 = .ok ∧
    (new_beacon envEx stEmpty "victim.com/x" "n" "d" true none none none
      (some "https://evil.com") false true 7).2.1.apps.map (·.url) =
      ["victim.com/x"] := by
  decide

/-- C10: the update path locates the listing by a base-URL prefix match but
the UPDATE statement filters by the literal submitted url: a resubmission
under `?s=2` of the listing stored under `?s=1`, with a changed name,
leaves every stored row untouched, yet appends an `Update` ledger row,
attempts fan-out to the follower, and returns success. -/
theorem update_by_literal_url_misses_matched_row :
    new_beacon envEx stOne "https://x.com/app?s=2" "NewName" "desc" true
      none none none none false true 7 =
    (.ok,
     ⟨[storedApp],
      [⟨"https://relay.example/relay/activities/1",
        "https://relay.example/relay",
        "https://relay.example/relay/beacon/0", "Update"⟩],
      [peerRelay], []⟩,
     [⟨"Update", "https://relay.example/relay/activities/1",
       ["https://peer.example/inbox"]⟩]) ∧
    "NewName" ≠ storedApp.name ∧
    "https://x.com/app?s=2" ≠ storedApp.url ∧
    get_base_url "https://x.com/app?s=2" = get_base_url storedApp.url ∧
    get_app_by_base_url stOne "https://x.com/app" = some storedApp := by
  decide

/-- C3 counterexample: when the ledger append fails, the claim's "the
stored listing row is left unchanged" is false: the row UPDATE has already
been executed, so the stored row retains the new name while the request
fails. -/
theorem ledger_failure_keeps_row_update_cex :
    (new_beacon envEx stOne "https://x.com/app?s=1" "NewName" "desc" true
      none none none none true true 7).1 = .serverError ∧
    (new_beacon envEx stOne "https://x.com/app?s=1" "NewName" "desc" true
      none none none none true true 7).2.1.apps ≠ stOne.apps ∧
    (new_beacon envEx stOne "https://x.com/app?s=1" "NewName" "desc" true
      none none none none true true 7).2.1.apps =
      [{ storedApp with name := "NewName" }] ∧
    (new_beacon envEx stOne "https://x.com/app?s=1" "NewName" "desc" true
      none none none none true true 7).2.1.activities = [] ∧
    (new_beacon envEx stOne "https://x.com/app?s=1" "NewName" "desc" true
      none none none none true true 7).2.2 = [] := by
  decide

/-- C2: a `PUT /beacon` submission that passes the origin guard, matches a
stored listing by base URL, and whose resolved fields (name, description,
active, image, adult, tags) all equal the stored row's values returns the
304-style `NotModified` outcome and performs no write at all: the state is
returned untouched and no fan-out delivery is attempted. -/
theorem new_beacon_unchanged_resubmission_is_noop
    (env : Env) (st : ServerState) (url name description : String)
    (active : Bool) (image? : Option String) (adult? : Option Bool)
    (tags? : Option String) (origin : Option String)
    (ledgerFails imageOk : Bool) (rand : Nat) (app : DbApp)
    (hguard : originGuardBlocks origin url = false)
    (hfound : get_app_by_base_url st ((get_base_url url).getD url) = some app)
    (himg : resolve_image env app (image?.getD "#") imageOk = some app.image)
    (heq : fields_unchanged app name description active app.image
      (adult?.getD false) (tags?.getD "") = true) :
    new_beacon env st url name description active image? adult? tags? origin
      ledgerFails imageOk rand = (.notModified, st, []) := by
  unfold new_beacon
  simp [hguard, hfound, himg, heq]

theorem new_beacon_unchanged_resubmission_is_noop_witness :
    new_beacon envEx stOne "https://x.com/app?s=1" "Old" "desc" true
      none none none none false true 7 = (.notModified, stOne, []) :=
  new_beacon_unchanged_resubmission_is_noop envEx stOne "https://x.com/app?s=1"
    "Old" "desc" true none none none none false true 7 storedApp
    (by decide) (by decide) (by decide) (by decide)

/-- C3 (amended): on the registry update path the listing-row UPDATE runs
before the ledger append; a ledger-append failure fails the whole request
(500) and skips the ledger row and fan-out, but the already-executed row
update is not rolled back: the final state is exactly `update_app` applied
to the old state, with the new field values and the ledger untouched. -/
theorem ledger_failure_fails_request_but_keeps_row_update
    (env : Env) (st : ServerState) (url name description : String)
    (active : Bool) (image? : Option String) (adult? : Option Bool)
    (tags? : Option String) (origin : Option String) (imageOk : Bool)
    (rand : Nat) (app : DbApp) (img : String)
    (hguard : originGuardBlocks origin url = false)
    (hfound : get_app_by_base_url st ((get_base_url url).getD url) = some app)
    (himg : resolve_image env app (image?.getD "#") imageOk = some img)
    (hne : fields_unchanged app name description active img
      (adult?.getD false) (tags?.getD "") = false) :
    new_beacon env st url name description active image? adult? tags? origin
      true imageOk rand =
    (.serverError,
     update_app st url (get_latest_value app.name name)
       (get_latest_value app.description description)
       (get_latest_value app.active active) img
       (get_latest_value app.adult (adult?.getD false))
       (get_latest_value app.tags (tags?.getD "")), []) ∧
    (update_app st url (get_latest_value app.name name)
       (get_latest_value app.description description)
       (get_latest_value app.active active) img
       (get_latest_value app.adult (adult?.getD false))
       (get_latest_value app.tags (tags?.getD ""))).activities
      = st.activities := by
  refine ⟨?_, rfl⟩
  unfold new_beacon
  simp [hguard, hfound, himg, hne]

theorem ledger_failure_fails_request_but_keeps_row_update_witness :
    new_beacon envEx stOne "https://x.com/app?s=1" "NewName" "desc" true
      none none none none true true 7 =
    (.serverError,
     update_app stOne "https://x.com/app?s=1"
       (get_latest_value storedApp.name "NewName")
       (get_latest_value storedApp.description "desc")
       (get_latest_value storedApp.active true) "#"
       (get_latest_value storedApp.adult false)
       (get_latest_value storedApp.tags ""), []) ∧
    (update_app stOne "https://x.com/app?s=1"
       (get_latest_value storedApp.name "NewName")
       (get_latest_value storedApp.description "desc")
       (get_latest_value storedApp.active true) "#"
       (get_latest_value storedApp.adult false)
       (get_latest_value storedApp.tags "")).activities = stOne.activities :=
  ledger_failure_fails_request_but_keeps_row_update envEx stOne
    "https://x.com/app?s=1" "NewName" "desc" true none none none none true 7
    storedApp "#" (by decide) (by decide) (by decide) (by decide)

/-- Pruning distributes into the live-count sum: filtering the pruned map
by a key predicate and summing lengths is summing, per raw key, the pruned
list length when the key matches and zero otherwise. -/
theorem pruned_filter_sum (p : String → Bool) (now : Int) :
    ∀ sessions : List (String × List SessionInfo),
      ((((prune_old_sessions now sessions).filter (fun e => p e.1)).map
        (fun e => e.2.length)).sum) =
      (sessions.map (fun e =>
        if p e.1 then (e.2.filter (fun s => now - s.timestamp < 5000)).length
        else 0)).sum := by
  intro sessions
  induction sessions with
  | nil => rfl
  | cons e rest ih =>
    unfold prune_old_sessions at ih ⊢
    by_cases h : p e.1 = true
    · simp [List.filter_cons, h, ih]
    · simp only [Bool.not_eq_true] at h
      simp [List.filter_cons, h, ih]

/-- C4: the live count of a listing is the sum, over every raw session URL
whose base URL equals the listing URL's base URL, of that URL's
session-list length after pruning; heartbeats are stored under the literal
submitted URL and merged only at read time, so heartbeats posted under
`?s=1` and `?s=2` keep two distinct write-time keys and both count toward
the same listing. -/
theorem live_count_merges_read_time_base_urls :
    (∀ (sessions : List (String × List SessionInfo)) (appUrl : String)
      (now : Int),
      live_count sessions appUrl now =
        (sessions.map (fun e =>
          if get_base_url e.1 == some ((get_base_url appUrl).getD appUrl) then
            (e.2.filter (fun s => now - s.timestamp < 5000)).length
          else 0)).sum) ∧
    (∀ (s1 s2 : String) (t now : Int), now - t < 5000 →
      (update_session_info [] "https://x.com/app?s=1" s1 t).2 = true ∧
      (update_session_info
        (update_session_info [] "https://x.com/app?s=1" s1 t).1
        "https://x.com/app?s=2" s2 t).2 = true ∧
      (update_session_info
        (update_session_info [] "https://x.com/app?s=1" s1 t).1
        "https://x.com/app?s=2" s2 t).1.map Prod.fst =
        ["https://x.com/app?s=1", "https://x.com/app?s=2"] ∧
      live_count (update_session_info
        (update_session_info [] "https://x.com/app?s=1" s1 t).1
        "https://x.com/app?s=2" s2 t).1 "https://x.com/app" now = 2) := by
  constructor
  · intro sessions appUrl now
    unfold live_count
    exact pruned_filter_sum
      (fun u => get_base_url u == some ((get_base_url appUrl).getD appUrl))
      now sessions
  · intro s1 s2 t now h
    have hne : ("https://x.com/app?s=1" == "https://x.com/app?s=2") = false := by
      decide
    have hb1 : (get_base_url "https://x.com/app?s=1" ==
        some ((get_base_url "https://x.com/app").getD "https://x.com/app")) =
        true := by decide
    have hb2 : (get_base_url "https://x.com/app?s=2" ==
        some ((get_base_url "https://x.com/app").getD "https://x.com/app")) =
        true := by decide
    simp [update_session_info, live_count, prune_old_sessions, hne, hb1, hb2,
      List.filter_cons, h]

theorem live_count_merges_read_time_base_urls_witness :
    (update_session_info [] "https://x.com/app?s=1" "alice" 0).2 = true ∧
    (update_session_info
      (update_session_info [] "https://x.com/app?s=1" "alice" 0).1
      "https://x.com/app?s=2" "bob" 0).2 = true ∧
    (update_session_info
      (update_session_info [] "https://x.com/app?s=1" "alice" 0).1
      "https://x.com/app?s=2" "bob" 0).1.map Prod.fst =
      ["https://x.com/app?s=1", "https://x.com/app?s=2"] ∧
    live_count (update_session_info
      (update_session_info [] "https://x.com/app?s=1" "alice" 0).1
      "https://x.com/app?s=2" "bob" 0).1 "https://x.com/app" 4999 = 2 :=
  live_count_merges_read_time_base_urls.2 "alice" "bob" 0 4999 (by decide)

/-- C5: pruning removes exactly the sessions whose age has reached the
5000 ms threshold — positionally, every per-url list is replaced by its
fresh entries, a session surviving iff `now - timestamp < 5000`
(equivalently, removed iff `5000 ≤ now - timestamp`); so a heartbeat at
`t = 0` still counts at `now = 4999` and no longer counts at `now = 5001`. -/
theorem prune_removes_exactly_stale_sessions :
    (∀ (now : Int) (sessions : List (String × List SessionInfo)) (i : Nat)
      (u : String) (l : List SessionInfo),
      sessions.get? i = some (u, l) →
      (prune_old_sessions now sessions).get? i =
        some (u, l.filter (fun s => now - s.timestamp < 5000)) ∧
      (∀ s : SessionInfo,
        s ∈ l.filter (fun s => now - s.timestamp < 5000) ↔
          s ∈ l ∧ ¬ 5000 ≤ now - s.timestamp)) ∧
    (live_count [("https://x.com/app", [⟨"visitor", 0⟩])]
      "https://x.com/app" 4999 = 1 ∧
     live_count [("https://x.com/app", [⟨"visitor", 0⟩])]
      "https://x.com/app" 5001 = 0) := by
  refine ⟨fun now sessions i u l h => ⟨?_, fun s => ?_⟩, by decide, by decide⟩
  · unfold prune_old_sessions
    rw [List.get?_map, h]
    rfl
  · simp [List.mem_filter, not_le]

theorem prune_removes_exactly_stale_sessions_witness :
    (prune_old_sessions 5001
      [("https://x.com/app", [(⟨"visitor", 0⟩ : SessionInfo)])]).get? 0 =
      some ("https://x.com/app",
        [(⟨"visitor", 0⟩ : SessionInfo)].filter
          (fun s => (5001 : Int) - s.timestamp < 5000)) ∧
    (∀ s : SessionInfo,
      s ∈ [(⟨"visitor", 0⟩ : SessionInfo)].filter
        (fun s => (5001 : Int) - s.timestamp < 5000) ↔
        s ∈ [(⟨"visitor", 0⟩ : SessionInfo)] ∧
          ¬ (5000 : Int) ≤ 5001 - s.timestamp) :=
  prune_removes_exactly_stale_sessions.1 5001
    [("https://x.com/app", [⟨"visitor", 0⟩])] 0 "https://x.com/app"
    [⟨"visitor", 0⟩] rfl

/-- C7: owner authorization succeeds exactly when the presented cookie is a
token signed by the system actor's key whose decoded listing id equals the
target listing's id; in particular a validly signed capability minted for
listing A, presented against a different listing B's update endpoint, is
rejected as unauthorized (`Token not valid for this world`) and B's state is
returned unmodified. -/
theorem owner_capability_scoped_to_listing :
    (∀ (cookie : Option OwnerToken) (expected : Int) (c : OwnerClaims),
      validate_owner_token cookie expected = .ok c ↔
        cookie = some (.signed c) ∧ c.app_id = expected) ∧
    (∀ (st : ServerState) (refB : String) (B : DbApp) (idA : Int)
      (slugA name description : String) (image? : Option String)
      (tags? : Option String) (adult? : Option Bool),
      lookupApp st refB = some B → idA ≠ B.id →
      update_world st refB (some (create_owner_token idA slugA)) name
        description image? tags? adult? = (.unauthorized .wrongWorld, st)) := by
  constructor
  · intro cookie expected c
    match cookie with
    | none => simp [validate_owner_token]
    | some .garbage => simp [validate_owner_token, verify_token]
    | some (.signed c') =>
      by_cases h : c'.app_id = expected
      · simp only [validate_owner_token, verify_token, h, ne_eq,
          not_true_eq_false, if_false, Except.ok.injEq, Option.some.injEq,
          OwnerToken.signed.injEq]
        constructor
        · rintro rfl; exact ⟨rfl, h⟩
        · rintro ⟨rfl, _⟩; rfl
      · simp only [validate_owner_token, verify_token, ne_eq, h,
          not_false_eq_true, if_true, Option.some.injEq, OwnerToken.signed.injEq]
        constructor
        · rintro ⟨⟩
        · rintro ⟨rfl, hc⟩; exact absurd hc h
  · intro st refB B idA slugA name description image? tags? adult? hB hne
    unfold update_world
    rw [hB]
    simp [validate_owner_token, verify_token, create_owner_token, hne]

theorem owner_capability_scoped_to_listing_witness :
    update_world stTwo "other" (some (create_owner_token 1 "old")) "n" "d"
      none none none = (.unauthorized .wrongWorld, stTwo) :=
  owner_capability_scoped_to_listing.2 stTwo "other" appOther 1 "old" "n" "d"
    none none none (by decide) (by decide)

/-- C8: `verify` on a resolved listing fails `noCode` when no verification
code is stored (or the stored one is empty); fails `fetchFailed` with the
underlying error when the listing's URL cannot be fetched; fails
`tagMissing`, echoing the expected code, when the recognized
`zesty-verify` meta tag is absent; fails `codeMismatch`, echoing both the
found and the expected value, when the tag's content differs under exact
string equality; and on an exact match marks the listing verified and
returns the owner capability `{listing_id, slug-or-id}` signed by the
system actor as an http-only, whole-site cookie valid for 7 days.  None of
the failure outcomes changes the state. -/
theorem verify_world_ownership_outcomes :
    (∀ (st : ServerState) (r : String) (app : DbApp)
      (fetch : Except String String) (meta : String → Option String),
      lookupApp st r = some app → app.verification_code = none →
      verify_world_ownership st r fetch meta = (.noCode, st)) ∧
    (∀ (st : ServerState) (r : String) (app : DbApp)
      (fetch : Except String String) (meta : String → Option String),
      lookupApp st r = some app → app.verification_code = some "" →
      verify_world_ownership st r fetch meta = (.noCode, st)) ∧
    (∀ (st : ServerState) (r : String) (app : DbApp) (code e : String)
      (meta : String → Option String),
      lookupApp st r = some app → app.verification_code = some code →
      code ≠ "" →
      verify_world_ownership st r (.error e) meta = (.fetchFailed e, st)) ∧
    (∀ (st : ServerState) (r : String) (app : DbApp) (code html : String)
      (meta : String → Option String),
      lookupApp st r = some app → app.verification_code = some code →
      code ≠ "" → meta html = none →
      verify_world_ownership st r (.ok html) meta = (.tagMissing code, st)) ∧
    (∀ (st : ServerState) (r : String) (app : DbApp)
      (code html found : String) (meta : String → Option String),
      lookupApp st r = some app → app.verification_code = some code →
      code ≠ "" → meta html = some found → found ≠ code →
      verify_world_ownership st r (.ok html) meta =
        (.codeMismatch found code, st)) ∧
    (∀ (st : ServerState) (r : String) (app : DbApp) (code html : String)
      (meta : String → Option String),
      lookupApp st r = some app → app.verification_code = some code →
      code ≠ "" → meta html = some code →
      verify_world_ownership st r (.ok html) meta =
        (.verified ⟨"relay-owner-token",
          .signed ⟨app.id, app.slug.getD (toString app.id)⟩, "/", true, 7⟩,
         mark_app_verified st app.id)) := by
  refine ⟨fun st r app fetch meta hl hc => ?_,
    fun st r app fetch meta hl hc => ?_,
    fun st r app code e meta hl hc hne => ?_,
    fun st r app code html meta hl hc hne hm => ?_,
    fun st r app code html found meta hl hc hne hm hfc => ?_,
    fun st r app code html meta hl hc hne hm => ?_⟩ <;>
    · unfold verify_world_ownership
      simp [hl, hc, create_owner_token, *]

theorem verify_world_ownership_outcomes_witness :
    verify_world_ownership stCode "old" (.ok "<html>")
      (fun _ => some "abc123") =
    (.verified ⟨"relay-owner-token",
      .signed ⟨appWithCode.id, "old"⟩, "/", true, 7⟩,
     mark_app_verified stCode appWithCode.id) :=
  verify_world_ownership_outcomes.2.2.2.2.2 stCode "old" appWithCode "abc123"
    "<html>" (fun _ => some "abc123") (by decide) (by decide) (by decide) rfl

/-- The probe loop finds the first free numbered slug: if every index from
`start` up to (but excluding) `i` is taken and `i` (within the fuelled
range) is free, the loop returns `{base}-{i}`. -/
theorem probeSlug_finds_first_free (taken : String → Bool) (base : String) :
    ∀ (fuel start i : Nat), start ≤ i → i < start + fuel →
      (∀ j, start ≤ j → j < i → taken (base ++ "-" ++ toString j) = true) →
      taken (base ++ "-" ++ toString i) = false →
      probeSlug taken base fuel start = some (base ++ "-" ++ toString i) := by
  intro fuel
  induction fuel with
  | zero => intro start i hle hlt _ _; omega
  | succ n ih =>
    intro start i hle hlt hall hfree
    by_cases hs : taken (base ++ "-" ++ toString start) = true
    · have hne : start ≠ i := by
        intro he; rw [he] at hs; rw [hfree] at hs; exact Bool.false_ne_true hs
      have hlt' : start < i := lt_of_le_of_ne hle hne
      unfold probeSlug
      rw [hs]
      simp only [not_true_eq_false, if_false]
      exact ih (start + 1) i hlt' (by omega)
        (fun j hj hj' => hall j (by omega) hj') hfree
    · have hi : i = start := by
        by_contra hne
        have : start < i := lt_of_le_of_ne hle (fun h => hne h.symm)
        exact hs (hall start le_rfl this)
      unfold probeSlug
      simp only [Bool.not_eq_true] at hs
      rw [hs]
      simp [hi]

/-- When every probed index is taken, the loop exhausts its fuel. -/
theorem probeSlug_exhausts (taken : String → Bool) (base : String) :
    ∀ (fuel start : Nat),
      (∀ j, start ≤ j → j < start + fuel →
        taken (base ++ "-" ++ toString j) = true) →
      probeSlug taken base fuel start = none := by
  intro fuel
  induction fuel with
  | zero => intro start _; rfl
  | succ n ih =>
    intro start hall
    unfold probeSlug
    rw [hall start le_rfl (by omega)]
    simp only [not_true_eq_false, if_false]
    exact ih (start + 1) (fun j hj hj' => hall j (by omega) (by omega))

/-- C9: `generate_unique_slug` returns the lowercase hyphen-separated ASCII
normalization of the name (fallback token `world` when empty): the base
slug itself when free; otherwise the first free `{base}-{i}` probing `i =
2, 3, ...` strictly below 1000; otherwise `{base}-{rand}` with a random
numeric suffix.  Two listings both named "Cool World" therefore get
`cool-world` and then `cool-world-2`, in submission order. -/
theorem generate_unique_slug_allocation :
    (∀ (taken : String → Bool) (name : String) (rand : Nat),
      taken (generate_slug name) = false →
      generate_unique_slug taken name rand = generate_slug name) ∧
    (∀ (taken : String → Bool) (name : String) (rand i : Nat),
      2 ≤ i → i < 1000 →
      taken (generate_slug name) = true →
      (∀ j, 2 ≤ j → j < i →
        taken (generate_slug name ++ "-" ++ toString j) = true) →
      taken (generate_slug name ++ "-" ++ toString i) = false →
      generate_unique_slug taken name rand =
        generate_slug name ++ "-" ++ toString i) ∧
    (∀ (taken : String → Bool) (name : String) (rand : Nat),
      taken (generate_slug name) = true →
      (∀ j, 2 ≤ j → j < 1000 →
        taken (generate_slug name ++ "-" ++ toString j) = true) →
      generate_unique_slug taken name rand =
        generate_slug name ++ "-" ++ toString rand) ∧
    (generate_slug "Cool World" = "cool-world" ∧
     generate_slug "!!!" = "world" ∧
     generate_unique_slug (fun _ => false) "Cool World" 123 = "cool-world" ∧
     generate_unique_slug (fun s => s == "cool-world") "Cool World" 123 =
       "cool-world-2") := by
  refine ⟨fun taken name rand hfree => ?_,
    fun taken name rand i h2 h1000 htaken hall hfree => ?_,
    fun taken name rand htaken hall => ?_,
    by decide, by decide, by decide, by decide⟩
  · simp [generate_unique_slug, hfree]
  · have hp := probeSlug_finds_first_free taken (generate_slug name) 998 2 i
      h2 (by omega) hall hfree
    simp [generate_unique_slug, htaken, hp]
  · have hp := probeSlug_exhausts taken (generate_slug name) 998 2
      (fun j hj hj' => hall j hj (by omega))
    simp [generate_unique_slug, htaken, hp]

theorem generate_unique_slug_allocation_witness :
    generate_unique_slug (fun s => s == "cool-world") "Cool World" 123 =
      generate_slug "Cool World" ++ "-" ++ toString 2 :=
  generate_unique_slug_allocation.2.1 (fun s => s == "cool-world")
    "Cool World" 123 2 (by decide) (by decide) (by decide)
    (fun j hj hj' => absurd hj' (by omega)) (by decide)

end Relay
